import Mathlib

/-!
Shallow embedding of the hex-chess rules engine

Verification development for the `hex-chess` repository (crate
`hex-chess-lib`): the cube-coordinate type (`src/hex-chess-lib/src/coord.rs`),
the per-piece shape rules (`src/hex-chess-lib/src/piece.rs`), the board and
legality pipeline (`src/hex-chess-lib/src/board.rs`) and the game session
(`src/hex-chess-lib/src/game.rs`).

Machine integers (`i32`) are embedded as `Int` (none of the verified
properties concern wrap-around), `HashMap<Coord, Piece>` as an association
list with map-like `lookup`/`insert`/`erase`, and the two Rust panic sites
(`collides`' divisions, whose divisor could in principle be zero, and
`teleport`'s `unwrap`) as `Option` results, `none` marking the panic.
-/

/-- `Coord` from `coord.rs`: an axial hex coordinate `(q, r)` with the third
cube component derived as `s = -q - r`. -/
structure Coord where
  q : Int
  r : Int
deriving DecidableEq

namespace Coord

/-- `Coord::new`. -/
def new (q r : Int) : Coord := ⟨q, r⟩

/-- `Coord::ZERO`. -/
def ZERO : Coord := new 0 0

/-- `Coord::s`: the derived cube component `-q - r`. -/
def s (c : Coord) : Int := -c.q - c.r

/-- `Coord::length`: hexagonal manhattan distance `max(|q|, |r|, |s|)`. -/
def length (c : Coord) : Int :=
  Int.ofNat (max c.q.natAbs (max c.r.natAbs c.s.natAbs))

/-- `Coord::norm_squared`: `q*q + r*r + q*r`. -/
def norm_squared (c : Coord) : Int := c.q * c.q + c.r * c.r + c.q * c.r

/-- `Coord::reflect_q`: `(q, r) ↦ (q, s)`. -/
def reflect_q (c : Coord) : Coord := new c.q c.s

/-- `Coord::is_axis`: exactly one cube component is zero, the other two
non-zero. -/
def is_axis (c : Coord) : Bool :=
  (c.q == 0 && c.r != 0 && c.s != 0)
    || (c.r == 0 && c.q != 0 && c.s != 0)
    || (c.s == 0 && c.q != 0 && c.r != 0)

/-- `impl Add for Coord`: componentwise. -/
instance : Add Coord := ⟨fun a b => new (a.q + b.q) (a.r + b.r)⟩

/-- `impl Sub for Coord`: componentwise. -/
instance : Sub Coord := ⟨fun a b => new (a.q - b.q) (a.r - b.r)⟩

/-- `impl Div for Coord`: componentwise truncating (`i32`) division. -/
instance : Div Coord := ⟨fun a b => new (Int.tdiv a.q b.q) (Int.tdiv a.r b.r)⟩

/-- `impl Div<i32> for Coord`: truncating division of both components. -/
instance : HDiv Coord Int Coord := ⟨fun a n => new (Int.tdiv a.q n) (Int.tdiv a.r n)⟩

/-- `impl Mul<i32> for Coord`: scale both components. -/
instance : HMul Coord Int Coord := ⟨fun a n => new (a.q * n) (a.r * n)⟩

/-- Modelled from the spec: the `Mul<Coord> for Coord` impl is code of this
repository missing from the given sources — `verify_bishop` (piece.rs line 71)
evaluates `f * m` with both operands `Coord`, but `coord.rs` as given defines
only `Mul<i32>`.  Following the spec's componentwise `Div<Coord>` counterpart
("Supports addition, subtraction, scalar multiply/divide") and the bishop
rule's use — "the displacement vector is a non-zero integer multiple of one of
the six unit diagonal directions", where the quotient-times-direction product
must reproduce the displacement — it is the componentwise product. -/
instance : Mul Coord := ⟨fun a b => new (a.q * b.q) (a.r * b.r)⟩

theorem add_def (a b : Coord) : a + b = new (a.q + b.q) (a.r + b.r) := rfl

theorem sub_def (a b : Coord) : a - b = new (a.q - b.q) (a.r - b.r) := rfl

theorem mul_coord_def (a b : Coord) : a * b = new (a.q * b.q) (a.r * b.r) := rfl

end Coord

/-- `MovesPossible` from `piece.rs`: whether a matched shape permits a quiet
move and/or a capture. -/
structure MovesPossible where
  _move : Bool
  capture : Bool
deriving DecidableEq

/-- `Name` from `piece.rs`: the closed set of piece kinds. -/
inductive Name where
  | King
  | Queen
  | Bishop
  | Knight
  | Rook
  | Pawn
deriving DecidableEq

/-- `PAWN_DOUBLES` from `piece.rs`: the lazily initialized set of cells a pawn
may reach by a two-cell step (queried against the move's destination). -/
def PAWN_DOUBLES : List Coord :=
  [Coord.new (-4) 1, Coord.new (-3) 1, Coord.new (-2) 1, Coord.new (-1) 1,
   Coord.new 0 1, Coord.new 1 0, Coord.new 1 (-1), Coord.new 1 (-2),
   Coord.new 1 (-3)]

namespace Name

/-- `Name::verify_pawn`: one step forward (`r + 1`, same `q`) is a quiet move;
two steps forward is a quiet move when the destination lies in `PAWN_DOUBLES`;
the two forward diagonals are capture-only. -/
def verify_pawn (_n : Name) (f t : Coord) : Option MovesPossible :=
  if f.q = t.q ∧ (f.r + 1 = t.r ∨ (t ∈ PAWN_DOUBLES ∧ f.r + 2 = t.r)) then
    some ⟨true, false⟩
  else if (f.q + 1 = t.q ∧ f.r = t.r) ∨ (f.q - 1 = t.q ∧ f.r + 1 = t.r) then
    some ⟨false, true⟩
  else
    none

/-- The `MOVEMENTS` table of `Name::verify_bishop`: the six unit diagonals. -/
def bishopMovements : List Coord :=
  [Coord.new 1 (-2), Coord.new 2 (-1), Coord.new 1 1,
   Coord.new (-1) 2, Coord.new (-2) 1, Coord.new (-1) (-1)]

/-- `Name::verify_bishop`: for each direction `m`, compute the componentwise
quotient `k = v / m` and accept when both components agree and `k * m`
reproduces `v` (the code's comment asks for a non-zero integer multiple, but
the test as written also accepts the zero multiple). -/
def verify_bishop (_n : Name) (f t : Coord) : Option MovesPossible :=
  let v := t - f
  if bishopMovements.any (fun m =>
      let k := v / m
      k.q == k.r && k * m == v) then
    some ⟨true, true⟩
  else
    none

/-- `Name::verify_rook`: `from` and `to` share a cube axis. -/
def verify_rook (_n : Name) (f t : Coord) : Option MovesPossible :=
  if f.q = t.q ∨ f.r = t.r ∨ f.s = t.s then
    some ⟨true, true⟩
  else
    none

/-- `Name::verify_knight`: `|v.q * v.r * v.s| = 6`. -/
def verify_knight (_n : Name) (f t : Coord) : Option MovesPossible :=
  let v := t - f
  if (v.q * v.r * v.s).natAbs = 6 then
    some ⟨true, true⟩
  else
    none

/-- `Name::verify_king`: hex distance 1, or a unit "short diagonal"
(`norm_squared % 3 == 0 && norm_squared / 3 == 1`). -/
def verify_king (_n : Name) (f t : Coord) : Option MovesPossible :=
  let v := t - f
  if v.length = 1 ∨ (Int.tmod v.norm_squared 3 = 0 ∧ Int.tdiv v.norm_squared 3 = 1) then
    some ⟨true, true⟩
  else
    none

/-- `Name::verify_move`: dispatch on the piece kind; the queen is the union of
rook and bishop (rook checked first). -/
def verify_move (n : Name) (f t : Coord) : Option MovesPossible :=
  match n with
  | .Pawn => n.verify_pawn f t
  | .Bishop => n.verify_bishop f t
  | .Rook => n.verify_rook f t
  | .Knight => n.verify_knight f t
  | .Queen =>
    match n.verify_rook f t with
    | some m => some m
    | none => n.verify_bishop f t
  | .King => n.verify_king f t

end Name

/-- `Team` from `piece.rs`. -/
inductive Team where
  | White
  | Black
deriving DecidableEq

/-- `Team::flip`. -/
def Team.flip : Team → Team
  | .White => .Black
  | .Black => .White

/-- `Piece` from `piece.rs`. -/
structure Piece where
  name : Name
  team : Team
deriving DecidableEq

namespace Piece

/-- `Piece::new`. -/
def new (name : Name) (team : Team) : Piece := ⟨name, team⟩

/-- `Piece::flip_team`. -/
def flip_team (p : Piece) : Piece := { p with team := p.team.flip }

/-- `Piece::verify_move`: a Black piece's coordinates are reflected across the
q-axis before dispatching to the (White-frame) shape rules. -/
def verify_move (p : Piece) (f t : Coord) : Option MovesPossible :=
  match p.team with
  | .Black => p.name.verify_move f.reflect_q t.reflect_q
  | .White => p.name.verify_move f t

end Piece

/-- `GetError` from `board.rs`. -/
inductive GetError where
  | NoPiece (c : Coord)
deriving DecidableEq

/-- `MoveErrorType` from `board.rs`. -/
inductive MoveErrorType where
  | NoPiece (e : GetError)
  | InvalidMove (p : Piece)
  | CollisionOnPath (p : Piece)
deriving DecidableEq

/-- `MoveError` from `board.rs`: the failure kind plus the attempted
endpoints (`from` and `to` are Lean keywords, hence the primed names). -/
structure MoveError where
  err_type : MoveErrorType
  from' : Coord
  to' : Coord
deriving DecidableEq

/-- First-match lookup in the association-list model of
`HashMap<Coord, Piece>`. -/
def piecesLookup : List (Coord × Piece) → Coord → Option Piece
  | [], _ => none
  | (c, p) :: rest, c' => if c' = c then some p else piecesLookup rest c'

/-- `HashMap::remove`-like erase in the association-list model. -/
def piecesErase (l : List (Coord × Piece)) (c : Coord) : List (Coord × Piece) :=
  l.filter (fun x => x.1 ≠ c)

/-- `HashMap::insert`-like (replacing) insert in the association-list model. -/
def piecesInsert (l : List (Coord × Piece)) (c : Coord) (p : Piece) :
    List (Coord × Piece) :=
  (c, p) :: piecesErase l c

/-- `STARTING_PIECES` from `board.rs`: White's half of Glinski's opening
layout. -/
def STARTING_PIECES : List (Coord × Piece) :=
  [(Coord.new 0 (-5), Piece.new .Bishop .White),
   (Coord.new 0 (-4), Piece.new .Bishop .White),
   (Coord.new 0 (-3), Piece.new .Bishop .White),
   (Coord.new 1 (-5), Piece.new .King .White),
   (Coord.new (-1) (-4), Piece.new .Queen .White),
   (Coord.new (-2) (-3), Piece.new .Knight .White),
   (Coord.new 2 (-5), Piece.new .Knight .White),
   (Coord.new (-3) (-2), Piece.new .Rook .White),
   (Coord.new 3 (-5), Piece.new .Rook .White),
   (Coord.new 4 (-5), Piece.new .Pawn .White),
   (Coord.new 3 (-4), Piece.new .Pawn .White),
   (Coord.new 2 (-3), Piece.new .Pawn .White),
   (Coord.new 1 (-2), Piece.new .Pawn .White),
   (Coord.new 0 (-1), Piece.new .Pawn .White),
   (Coord.new (-1) (-1), Piece.new .Pawn .White),
   (Coord.new (-2) (-1), Piece.new .Pawn .White),
   (Coord.new (-3) (-1), Piece.new .Pawn .White),
   (Coord.new (-4) (-1), Piece.new .Pawn .White)]

/-- `reflect_team` from `board.rs`: reflect every coordinate across the q-axis
and flip every piece's team. -/
def reflect_team (pieces : List (Coord × Piece)) : List (Coord × Piece) :=
  pieces.map (fun cp => (cp.1.reflect_q, cp.2.flip_team))

/-- `HexBoard` from `board.rs`: the position map and the per-team checkers
lists (`checkers: [Vec<Coord>; 2]`, index 0 = White, index 1 = Black). -/
structure HexBoard where
  pieces : List (Coord × Piece)
  checkersWhite : List Coord
  checkersBlack : List Coord
deriving DecidableEq

namespace HexBoard

/-- The board radius `HexBoard::N`. -/
def N : Int := 5

/-- Read `checkers[team as usize]`. -/
def checkers (b : HexBoard) : Team → List Coord
  | .White => b.checkersWhite
  | .Black => b.checkersBlack

/-- `HexBoard::new`: empty position, both checkers lists empty. -/
def new : HexBoard := ⟨[], [], []⟩

/-- `HexBoard::new_initialize`: extend the empty map with `STARTING_PIECES`
and then with its reflected, team-flipped copy. -/
def new_initialize : HexBoard :=
  let b := HexBoard.new
  { b with
    pieces :=
      (STARTING_PIECES ++ reflect_team STARTING_PIECES).foldl
        (fun l cp => piecesInsert l cp.1 cp.2) b.pieces }

/-- `HexBoard::place`. -/
def place (b : HexBoard) (c : Coord) (piece : Piece) : HexBoard :=
  { b with pieces := piecesInsert b.pieces c piece }

/-- `HexBoard::get`. -/
def get (b : HexBoard) (c : Coord) : Except GetError Piece :=
  match piecesLookup b.pieces c with
  | some p => .ok p
  | none => .error (.NoPiece c)

/-- `HexBoard::collides`: march from `from` toward `to` in unit steps
(`v / axial_len` along an axis, otherwise the unit diagonal obtained by
dividing by `sqrt(norm_squared / 3)` truncated, embedded as `Nat.sqrt` — the
`f32` square root is exact on this integer range), reporting whether any
strictly intermediate cell is occupied.  `none` models the division-by-zero
panic when the computed step count is zero. -/
def collides (b : HexBoard) (f t : Coord) : Option Bool :=
  let v := t - f
  let step : Option (Int × Coord) :=
    if v.is_axis then
      let axial_len := v.length
      if axial_len = 0 then none else some (axial_len, v / axial_len)
    else
      let axial_len : Int :=
        Int.ofNat (Nat.sqrt (Int.tdiv v.norm_squared 3).toNat)
      if axial_len = 0 then none else some (axial_len, v / axial_len)
  match step with
  | none => none
  | some (axial_len, uv) =>
    some ((List.range (axial_len.toNat - 1)).any
      (fun n => (piecesLookup b.pieces (f + uv * (n + 1 : Int))).isSome))

/-- `HexBoard::update_checkers`: the function body begins with an
unconditional `return;` (board.rs line 135), so the king-scanning loop after
it is unreachable and the function is the identity on the board. -/
def update_checkers (b : HexBoard) : HexBoard := b

/-- `HexBoard::teleport`: remove the piece at `from` (`unwrap`, modelled by
`none` when the cell is empty) and insert it at `to`, overwriting anything
there. -/
def teleport (b : HexBoard) (f t : Coord) : Option HexBoard :=
  match piecesLookup b.pieces f with
  | none => none
  | some piece => some { b with pieces := piecesInsert (piecesErase b.pieces f) t piece }

/-- `HexBoard::unchecked_can_move`: bounds, then shape, then
occupancy/capture, then path collision. -/
def unchecked_can_move (b : HexBoard) (piece : Piece) (f t : Coord) :
    Option (Except MoveError Unit) :=
  if t.q.natAbs > 5 ∨ t.r.natAbs > 5 ∨ t.s.natAbs > 5 then
    some (.error ⟨.InvalidMove piece, f, t⟩)
  else
    match piece.verify_move f t with
    | none => some (.error ⟨.InvalidMove piece, f, t⟩)
    | some possible =>
      let occupied := (piecesLookup b.pieces t).isSome
      let sameTeam : Bool :=
        match piecesLookup b.pieces t with
        | some q => q.team == piece.team
        | none => false
      if (!possible.capture && occupied) ||
          (possible.capture && occupied && sameTeam) ||
          (!possible._move && !occupied) then
        some (.error ⟨.InvalidMove piece, f, t⟩)
      else
        match b.collides f t with
        | none => none
        | some true => some (.error ⟨.CollisionOnPath piece, f, t⟩)
        | some false => some (.ok ())

/-- `HexBoard::can_move`: resolve the piece; with no recorded checkers for its
team delegate to `unchecked_can_move`, otherwise accept exactly when the move
simulated on a copy (`teleport` then `update_checkers`) clears that team's
checkers. -/
def can_move (b : HexBoard) (f t : Coord) : Option (Except MoveError Unit) :=
  match b.get f with
  | .error e => some (.error ⟨.NoPiece e, f, t⟩)
  | .ok piece =>
    if (b.checkers piece.team).isEmpty then
      b.unchecked_can_move piece f t
    else
      match b.teleport f t with
      | none => none
      | some projected =>
        if ((projected.update_checkers).checkers piece.team).isEmpty then
          some (.ok ())
        else
          some (.error ⟨.InvalidMove piece, f, t⟩)

/-- `HexBoard::move_piece`: check `can_move`, and on success `teleport` the
piece and recompute checkers; the updated board is returned alongside the
result (it is unchanged whenever the result is an error). -/
def move_piece (b : HexBoard) (f t : Coord) :
    Option (Except MoveError Unit × HexBoard) :=
  match b.can_move f t with
  | none => none
  | some (.error e) => some (.error e, b)
  | some (.ok _) =>
    match b.teleport f t with
    | none => none
    | some moved => some (.ok (), moved.update_checkers)

/-- The 91 in-bounds cells of the radius-5 board, used by the modelled
checkmate predicate to enumerate candidate destinations. -/
def boardCells : List Coord :=
  (List.range 11).flatMap (fun qi =>
    (List.range 11).filterMap (fun ri =>
      let c := Coord.new ((qi : Int) - 5) ((ri : Int) - 5)
      if c.s.natAbs ≤ 5 then some c else none))

/-- Modelled from the spec: `HexBoard::is_checkmated` is called by
`Game::move_piece` (game.rs line 42) but is defined nowhere in the given
sources.  Per spec §4.4 the flag is "is the *new* side to move checkmated (no
legal move exists that clears their checkers)": the team has recorded checkers
and no move of one of its pieces to an in-bounds cell is accepted by
`can_move`. -/
def is_checkmated (b : HexBoard) (team : Team) : Bool :=
  !(b.checkers team).isEmpty &&
    (b.pieces.filter (fun cp => cp.2.team == team)).all (fun cp =>
      boardCells.all (fun t =>
        match b.can_move cp.1 t with
        | some (.ok _) => false
        | _ => true))

end HexBoard

/-- `GameError` from `game.rs`. -/
inductive GameError where
  | PieceError (e : GetError)
  | TurnError (given real : Team)
  | MoveError (e : MoveError)
deriving DecidableEq

/-- `Game` from `game.rs`. -/
structure Game where
  turn : Team
  board : HexBoard
  finished : Bool
deriving DecidableEq

namespace Game

/-- `Game::new`: White to move on the initialized board, not finished. -/
def new : Game := ⟨.White, HexBoard.new_initialize, false⟩

/-- `Game::move_piece`: resolve the piece, reject a wrong-team move with
`TurnError`, delegate to the board, then set `finished` from the (modelled)
checkmate predicate and flip the turn. -/
def move_piece (g : Game) (f t : Coord) : Option (Except GameError Unit × Game) :=
  match g.board.get f with
  | .error e => some (.error (.PieceError e), g)
  | .ok piece =>
    if piece.team ≠ g.turn then
      some (.error (.TurnError piece.team g.turn), g)
    else
      match g.board.move_piece f t with
      | none => none
      | some (.error e, b') => some (.error (.MoveError e), { g with board := b' })
      | some (.ok _, b') =>
        some (.ok (),
          { g with
            board := b',
            finished := b'.is_checkmated g.turn.flip,
            turn := g.turn.flip })

end Game

/-- Board states reachable through the public interface: `new`,
`new_initialize`, arbitrary `place`s, and (accepted or rejected, non-panicking)
`move_piece`s. -/
inductive Reachable : HexBoard → Prop
  | new : Reachable HexBoard.new
  | new_initialize : Reachable HexBoard.new_initialize
  | place (b : HexBoard) (c : Coord) (p : Piece) :
      Reachable b → Reachable (b.place c p)
  | move (b : HexBoard) (f t : Coord) (r : Except MoveError Unit) (b' : HexBoard) :
      Reachable b → b.move_piece f t = some (r, b') → Reachable b'

deriving instance DecidableEq for Except

/-- The nine source cells from which the code's `PAWN_DOUBLES` destination set
permits a pawn's two-cell step (each entry is a `PAWN_DOUBLES` destination
minus `(0, 2)`); only six of them are cells of White's initial pawn layout. -/
def pawnTwoStepSources : List Coord :=
  [Coord.new (-4) (-1), Coord.new (-3) (-1), Coord.new (-2) (-1),
   Coord.new (-1) (-1), Coord.new 0 (-1), Coord.new 1 (-2),
   Coord.new 1 (-3), Coord.new 1 (-4), Coord.new 1 (-5)]

theorem Coord.new_q (a b : Int) : (Coord.new a b).q = a := rfl

theorem Coord.new_r (a b : Int) : (Coord.new a b).r = b := rfl

theorem Coord.new_inj (a b c d : Int) :
    Coord.new a b = Coord.new c d ↔ a = c ∧ b = d := by
  simp [Coord.new]

theorem Coord.eq_new_iff (x : Coord) (a b : Int) :
    x = Coord.new a b ↔ x.q = a ∧ x.r = b := by
  cases x
  simp [Coord.new]

theorem Coord.reflect_q_reflect_q (c : Coord) : c.reflect_q.reflect_q = c := by
  cases c
  simp [Coord.reflect_q, Coord.s, Coord.new]

theorem Coord.sub_self_eq_zero (c : Coord) : c - c = Coord.new 0 0 := by
  simp [Coord.sub_def, Coord.new]

/-- C8: team symmetry of the shape rules.  For every piece kind and all
coordinates, the White piece's verdict at `(f, t)` equals the Black piece's at
the q-reflected pair, and vice versa: the Black piece's pre-dispatch
reflection cancels against `reflect_q` being an involution. -/
theorem c8_shape_rule_team_symmetry (n : Name) (f t : Coord) :
    (Piece.new n .White).verify_move f t =
      (Piece.new n .Black).verify_move f.reflect_q t.reflect_q ∧
    (Piece.new n .Black).verify_move f t =
      (Piece.new n .White).verify_move f.reflect_q t.reflect_q := by
  constructor <;>
    simp [Piece.verify_move, Piece.new, Coord.reflect_q_reflect_q]

/-- C6 (failing input): the bishop shape check accepts the *zero*
displacement: at `from = to = (0,0)` the quotient by the first direction is
`(0,0)`, whose components agree and reproduce `v = 0`, so `verify_move`
returns both-permitted — although the claim (and the code's own comment,
"non-zero integer multiple") require `None` at `t = f`. -/
theorem c6_bishop_accepts_zero_displacement :
    (Piece.new .Bishop .White).verify_move (Coord.new 0 0) (Coord.new 0 0) =
      some ⟨true, true⟩ := by
  decide

/-- C2 (counterexample): `(2,-3)` is one of the nine cells where White pawns
are placed by `STARTING_PIECES`, yet the two-cell forward step from it is
rejected by the shape rule — `(2,-1)` is not in `PAWN_DOUBLES` — refuting the
claim that the two-step is accepted from every starting cell; and the move
`(0,-1) -> (0,1)` is accepted as a quiet move, not rejected as the claim
asserts. -/
theorem c2_counterexample_start_cell_two_step_rejected :
    (Piece.new .Pawn .White).verify_move (Coord.new 2 (-3)) (Coord.new 2 (-1)) =
      none ∧
    (Piece.new .Pawn .White).verify_move (Coord.new 0 (-1)) (Coord.new 0 1) =
      some ⟨true, false⟩ := by
  constructor <;> decide

set_option maxHeartbeats 1000000 in
/-- C2 (amended): a White pawn's two-cell forward step is shape-legal exactly
when its *destination* lies in the fixed `PAWN_DOUBLES` set, i.e. exactly when
the pawn stands on one of the nine cells of `pawnTwoStepSources` — a set that
agrees with the initial pawn layout on only six of nine cells (the layout
cells `(2,-3)`, `(3,-4)`, `(4,-5)` are not included; the non-layout cells
`(1,-3)`, `(1,-4)`, `(1,-5)` are).  A single forward step is a shape-legal
quiet move from every cell, and the move `(0,-1) -> (0,1)` is accepted, not
rejected. -/
theorem c2_pawn_two_step_sources (f : Coord) :
    (Piece.new .Pawn .White).verify_move f (Coord.new f.q (f.r + 1)) =
      some ⟨true, false⟩ ∧
    ((Piece.new .Pawn .White).verify_move f (Coord.new f.q (f.r + 2)) =
        some ⟨true, false⟩ ↔ f ∈ pawnTwoStepSources) ∧
    (Piece.new .Pawn .White).verify_move (Coord.new 0 (-1)) (Coord.new 0 1) =
      some ⟨true, false⟩ := by
  refine ⟨?_, ?_, by decide⟩
  · simp [Piece.verify_move, Piece.new, Name.verify_move, Name.verify_pawn,
      Coord.new_q, Coord.new_r]
  · simp only [Piece.verify_move, Piece.new, Name.verify_move, Name.verify_pawn,
      Coord.new_q, Coord.new_r]
    split_ifs with h1 h2
    · simp only [Option.some.injEq, true_iff]
      simp only [PAWN_DOUBLES, List.mem_cons, List.not_mem_nil, or_false,
        Coord.eq_new_iff, Coord.new_q, Coord.new_r, true_and, and_true] at h1
      simp only [pawnTwoStepSources, List.mem_cons, List.not_mem_nil, or_false,
        Coord.eq_new_iff]
      omega
    · exfalso
      omega
    · simp only [reduceCtorEq, false_iff]
      simp only [PAWN_DOUBLES, List.mem_cons, List.not_mem_nil, or_false,
        Coord.eq_new_iff, Coord.new_q, Coord.new_r, true_and, and_true] at h1
      simp only [pawnTwoStepSources, List.mem_cons, List.not_mem_nil, or_false,
        Coord.eq_new_iff]
      omega

theorem Name.verify_pawn_self (n : Name) (c : Coord) : n.verify_pawn c c = none := by
  have h1 : ¬(c.r + 1 = c.r) := by omega
  have h2 : ¬(c.r + 2 = c.r) := by omega
  have h3 : ¬(c.q + 1 = c.q) := by omega
  have h4 : ¬(c.q - 1 = c.q) := by omega
  simp [Name.verify_pawn, h1, h2, h3, h4]

theorem Name.verify_bishop_self (n : Name) (c : Coord) :
    n.verify_bishop c c = some ⟨true, true⟩ := by
  simp only [Name.verify_bishop, Coord.sub_self_eq_zero]
  decide

theorem Name.verify_rook_self (n : Name) (c : Coord) :
    n.verify_rook c c = some ⟨true, true⟩ := by
  simp [Name.verify_rook]

theorem Name.verify_knight_self (n : Name) (c : Coord) : n.verify_knight c c = none := by
  simp only [Name.verify_knight, Coord.sub_self_eq_zero]
  decide

theorem Name.verify_king_self (n : Name) (c : Coord) : n.verify_king c c = none := by
  simp only [Name.verify_king, Coord.sub_self_eq_zero]
  decide

theorem Name.verify_move_self (n : Name) (c : Coord) :
    n.verify_move c c =
      if n = .Bishop ∨ n = .Rook ∨ n = .Queen then some ⟨true, true⟩ else none := by
  cases n <;>
    simp [Name.verify_move, Name.verify_pawn_self, Name.verify_bishop_self,
      Name.verify_rook_self, Name.verify_knight_self, Name.verify_king_self]

theorem Piece.verify_move_self_eq (p : Piece) (c : Coord) :
    p.verify_move c c =
      if p.name = .Bishop ∨ p.name = .Rook ∨ p.name = .Queen then
        some ⟨true, true⟩
      else none := by
  obtain ⟨n, tm⟩ := p
  cases tm <;> simp [Piece.verify_move, Name.verify_move_self]

theorem HexBoard.get_eq_ok_iff (b : HexBoard) (c : Coord) (p : Piece) :
    b.get c = .ok p ↔ piecesLookup b.pieces c = some p := by
  unfold HexBoard.get
  cases h : piecesLookup b.pieces c <;> simp

theorem HexBoard.checkers_set_pieces (b : HexBoard) (l : List (Coord × Piece))
    (tm : Team) :
    (({ b with pieces := l } : HexBoard)).checkers tm = b.checkers tm := by
  cases tm <;> rfl

theorem HexBoard.update_checkers_eq (b : HexBoard) : b.update_checkers = b := rfl

theorem HexBoard.teleport_eq_some (b : HexBoard) (f t : Coord) (p : Piece)
    (h : piecesLookup b.pieces f = some p) :
    b.teleport f t =
      some { b with pieces := piecesInsert (piecesErase b.pieces f) t p } := by
  simp [HexBoard.teleport, h]

theorem HexBoard.teleport_checkers (b b' : HexBoard) (f t : Coord)
    (h : b.teleport f t = some b') :
    ∀ tm, b'.checkers tm = b.checkers tm := by
  unfold HexBoard.teleport at h
  cases hl : piecesLookup b.pieces f with
  | none => rw [hl] at h; exact Option.noConfusion h
  | some p =>
    rw [hl] at h
    injection h with h
    subst h
    intro tm
    exact HexBoard.checkers_set_pieces b _ tm

theorem HexBoard.can_move_in_check (b : HexBoard) (f t : Coord) (piece : Piece)
    (hl : piecesLookup b.pieces f = some piece)
    (hne : (b.checkers piece.team).isEmpty = false) :
    b.can_move f t = some (.error ⟨.InvalidMove piece, f, t⟩) := by
  simp [HexBoard.can_move, HexBoard.get, hl, hne, HexBoard.teleport,
    HexBoard.update_checkers_eq, HexBoard.checkers_set_pieces]

theorem HexBoard.can_move_no_check (b : HexBoard) (f t : Coord) (piece : Piece)
    (hl : piecesLookup b.pieces f = some piece)
    (he : (b.checkers piece.team).isEmpty = true) :
    b.can_move f t = b.unchecked_can_move piece f t := by
  simp [HexBoard.can_move, HexBoard.get, hl, he]

/-- C1: with the moving piece resolved at `from`, if that team's checkers
list is non-empty then `can_move` succeeds iff the unchecked pipeline succeeds
and the simulated move (teleport on a copy, then `update_checkers`) leaves the
team with zero checkers — both sides are in fact always false, because the
simulation never clears the copied non-empty list — and if the checkers list
is empty, `can_move` delegates exactly to `unchecked_can_move`. -/
theorem c1_can_move_check_gate (b : HexBoard) (f t : Coord) (piece : Piece)
    (hget : b.get f = .ok piece) :
    ((b.checkers piece.team ≠ [] →
        (b.can_move f t = some (.ok ()) ↔
          (b.unchecked_can_move piece f t = some (.ok ()) ∧
            ∃ projected, b.teleport f t = some projected ∧
              (projected.update_checkers).checkers piece.team = []))) ∧
      (b.checkers piece.team = [] →
        b.can_move f t = b.unchecked_can_move piece f t)) := by
  have hl : piecesLookup b.pieces f = some piece :=
    (HexBoard.get_eq_ok_iff b f piece).1 hget
  constructor
  · intro hne
    have hne' : (b.checkers piece.team).isEmpty = false := by
      cases hc : b.checkers piece.team with
      | nil => exact absurd hc hne
      | cons a l => rfl
    rw [HexBoard.can_move_in_check b f t piece hl hne']
    constructor
    · intro h
      exact absurd h (by simp)
    · rintro ⟨-, projected, hproj, hempty⟩
      rw [HexBoard.update_checkers_eq,
        HexBoard.teleport_checkers b projected f t hproj] at hempty
      exact absurd hempty hne
  · intro he
    exact HexBoard.can_move_no_check b f t piece hl (by rw [he]; rfl)

/-- Witness for C1 at a concrete in-check state: a board holding a single
White pawn at the origin whose White checkers list is non-empty. -/
theorem c1_can_move_check_gate_witness :
    ((⟨[(Coord.new 0 0, Piece.new .Pawn .White)], [Coord.new 0 0], []⟩ :
        HexBoard).can_move (Coord.new 0 0) (Coord.new 0 1) = some (.ok ()) ↔
      ((⟨[(Coord.new 0 0, Piece.new .Pawn .White)], [Coord.new 0 0], []⟩ :
          HexBoard).unchecked_can_move (Piece.new .Pawn .White) (Coord.new 0 0)
          (Coord.new 0 1) = some (.ok ()) ∧
        ∃ projected,
          (⟨[(Coord.new 0 0, Piece.new .Pawn .White)], [Coord.new 0 0], []⟩ :
            HexBoard).teleport (Coord.new 0 0) (Coord.new 0 1) =
              some projected ∧
          (projected.update_checkers).checkers (Piece.new .Pawn .White).team =
            [])) ∧
    ((⟨[(Coord.new 0 0, Piece.new .Pawn .White)], [], []⟩ :
        HexBoard).can_move (Coord.new 0 0) (Coord.new 0 1) =
      (⟨[(Coord.new 0 0, Piece.new .Pawn .White)], [], []⟩ :
        HexBoard).unchecked_can_move (Piece.new .Pawn .White) (Coord.new 0 0)
        (Coord.new 0 1)) :=
  ⟨(c1_can_move_check_gate
      ⟨[(Coord.new 0 0, Piece.new .Pawn .White)], [Coord.new 0 0], []⟩
      (Coord.new 0 0) (Coord.new 0 1) (Piece.new .Pawn .White) (by decide)).1
      (by decide),
    (c1_can_move_check_gate
      ⟨[(Coord.new 0 0, Piece.new .Pawn .White)], [], []⟩
      (Coord.new 0 0) (Coord.new 0 1) (Piece.new .Pawn .White) (by decide)).2
      (by decide)⟩

theorem HexBoard.move_piece_checkers (b b' : HexBoard) (f t : Coord)
    (r : Except MoveError Unit) (h : b.move_piece f t = some (r, b')) :
    ∀ tm, b'.checkers tm = b.checkers tm := by
  unfold HexBoard.move_piece at h
  cases hc : b.can_move f t with
  | none => rw [hc] at h; exact Option.noConfusion h
  | some res =>
    rw [hc] at h
    cases res with
    | error e =>
      simp only [Option.some.injEq, Prod.mk.injEq] at h
      obtain ⟨-, h2⟩ := h
      subst h2
      intro tm
      rfl
    | ok u =>
      cases ht : b.teleport f t with
      | none => rw [ht] at h; exact Option.noConfusion h
      | some moved =>
        rw [ht] at h
        simp only [Option.some.injEq, Prod.mk.injEq] at h
        obtain ⟨-, h2⟩ := h
        subst h2
        rw [HexBoard.update_checkers_eq]
        exact HexBoard.teleport_checkers b moved f t ht

theorem HexBoard.move_piece_error_frame (b b' : HexBoard) (f t : Coord)
    (e : MoveError) (h : b.move_piece f t = some (.error e, b')) :
    b' = b ∧ b.can_move f t = some (.error e) := by
  unfold HexBoard.move_piece at h
  cases hc : b.can_move f t with
  | none => rw [hc] at h; exact Option.noConfusion h
  | some res =>
    rw [hc] at h
    cases res with
    | error e' =>
      simp only [Option.some.injEq, Prod.mk.injEq] at h
      obtain ⟨h1, h2⟩ := h
      injection h1 with h1
      subst h1
      exact ⟨h2.symm, rfl⟩
    | ok u =>
      cases ht : b.teleport f t with
      | none => rw [ht] at h; exact Option.noConfusion h
      | some moved =>
        rw [ht] at h
        simp at h

/-- C3: every board state reachable through the public interface (`new`,
`new_initialize`, `place`, `move_piece`) has both checkers lists empty —
`update_checkers` returns before doing any work — and consequently the
in-check branch of `can_move` is never taken: `can_move` always delegates to
`unchecked_can_move` on the resolved piece. -/
theorem c3_checkers_permanently_empty (b : HexBoard) (h : Reachable b) :
    (b.checkersWhite = [] ∧ b.checkersBlack = []) ∧
      ∀ f t piece, b.get f = .ok piece →
        b.can_move f t = b.unchecked_can_move piece f t := by
  have key : b.checkersWhite = [] ∧ b.checkersBlack = [] := by
    induction h with
    | new => exact ⟨rfl, rfl⟩
    | new_initialize => exact ⟨rfl, rfl⟩
    | place b c p hr ih => exact ih
    | move b f t r b' hr hmv ih =>
      have hck := HexBoard.move_piece_checkers b b' f t r hmv
      exact ⟨(hck .White).trans ih.1, (hck .Black).trans ih.2⟩
  refine ⟨key, ?_⟩
  intro f t piece hget
  have hl : piecesLookup b.pieces f = some piece :=
    (HexBoard.get_eq_ok_iff b f piece).1 hget
  apply HexBoard.can_move_no_check b f t piece hl
  have hempty : b.checkers piece.team = [] := by
    cases piece.team
    · exact key.1
    · exact key.2
  rw [hempty]
  rfl

/-- Witness for C3 at the concrete state `HexBoard.new`. -/
theorem c3_checkers_permanently_empty_witness :
    HexBoard.new.checkersWhite = [] ∧ HexBoard.new.checkersBlack = [] :=
  (c3_checkers_permanently_empty HexBoard.new Reachable.new).1

/-- C4: a rejected move mutates nothing.  If `can_move` fails with error `e`,
`move_piece` returns exactly that error and the board value — piece map and
checkers — unchanged; and whenever `Game::move_piece` returns any `GameError`,
the whole game value (board, turn, finished flag) is unchanged. -/
theorem c4_rejected_move_mutates_nothing :
    (∀ (b : HexBoard) (f t : Coord) (e : MoveError),
        b.can_move f t = some (.error e) →
          b.move_piece f t = some (.error e, b)) ∧
    (∀ (g : Game) (f t : Coord) (err : GameError) (g' : Game),
        g.move_piece f t = some (.error err, g') → g' = g) := by
  constructor
  · intro b f t e hc
    unfold HexBoard.move_piece
    rw [hc]
  · intro g f t err g' h
    unfold Game.move_piece at h
    cases hg : g.board.get f with
    | error e =>
      rw [hg] at h
      simp only [Option.some.injEq, Prod.mk.injEq] at h
      exact h.2.symm
    | ok piece =>
      rw [hg] at h
      dsimp only at h
      by_cases hteam : piece.team ≠ g.turn
      · rw [if_pos hteam] at h
        simp only [Option.some.injEq, Prod.mk.injEq] at h
        exact h.2.symm
      · rw [if_neg hteam] at h
        cases hm : g.board.move_piece f t with
        | none => rw [hm] at h; exact Option.noConfusion h
        | some res =>
          rw [hm] at h
          obtain ⟨rv, b'⟩ := res
          cases rv with
          | error e =>
            simp only [Option.some.injEq, Prod.mk.injEq] at h
            obtain ⟨-, h2⟩ := h
            have hb := (HexBoard.move_piece_error_frame g.board b' f t e hm).1
            rw [← h2, hb]
          | ok u =>
            simp at h

/-- Witness for C4 on the empty board: the rejected move `(0,0) -> (1,0)`
returns the `NoPiece` error and the unchanged board. -/
theorem c4_rejected_move_mutates_nothing_witness :
    ((⟨[], [], []⟩ : HexBoard).move_piece (Coord.new 0 0) (Coord.new 1 0) =
      some (.error ⟨.NoPiece (.NoPiece (Coord.new 0 0)), Coord.new 0 0,
        Coord.new 1 0⟩, (⟨[], [], []⟩ : HexBoard))) ∧
    ((⟨Team.White, ⟨[(Coord.new 0 1, Piece.new .Pawn .Black)], [], []⟩,
        false⟩ : Game) =
      ⟨Team.White, ⟨[(Coord.new 0 1, Piece.new .Pawn .Black)], [], []⟩,
        false⟩) :=
  ⟨c4_rejected_move_mutates_nothing.1 ⟨[], [], []⟩ (Coord.new 0 0)
      (Coord.new 1 0) _ (by decide),
    c4_rejected_move_mutates_nothing.2
      ⟨Team.White, ⟨[(Coord.new 0 1, Piece.new .Pawn .Black)], [], []⟩, false⟩
      (Coord.new 0 1) (Coord.new 0 0)
      (.TurnError Team.Black Team.White)
      ⟨Team.White, ⟨[(Coord.new 0 1, Piece.new .Pawn .Black)], [], []⟩, false⟩
      (by decide)⟩

/-- C5: after `Game::new()` the turn is White; every accepted `move_piece`
flips the turn; and a move of a piece of the non-active team fails with
`TurnError{given := that piece's team, real := the current turn}`, leaving the
game (board, turn, finished) unchanged. -/
theorem c5_turn_alternation :
    Game.new.turn = Team.White ∧
    (∀ (g : Game) (f t : Coord) (g' : Game),
        g.move_piece f t = some (.ok (), g') → g'.turn = g.turn.flip) ∧
    (∀ (g : Game) (f t : Coord) (piece : Piece),
        g.board.get f = .ok piece → piece.team ≠ g.turn →
          g.move_piece f t =
            some (.error (.TurnError piece.team g.turn), g)) := by
  refine ⟨rfl, ?_, ?_⟩
  · intro g f t g' h
    unfold Game.move_piece at h
    cases hg : g.board.get f with
    | error e => rw [hg] at h; simp at h
    | ok piece =>
      rw [hg] at h
      dsimp only at h
      by_cases hteam : piece.team ≠ g.turn
      · rw [if_pos hteam] at h
        simp at h
      · rw [if_neg hteam] at h
        cases hm : g.board.move_piece f t with
        | none => rw [hm] at h; exact Option.noConfusion h
        | some res =>
          rw [hm] at h
          obtain ⟨rv, b'⟩ := res
          cases rv with
          | error e => simp at h
          | ok u =>
            simp only [Option.some.injEq, Prod.mk.injEq] at h
            obtain ⟨-, h2⟩ := h
            rw [← h2]
  · intro g f t piece hget hteam
    unfold Game.move_piece
    rw [hget]
    dsimp only
    rw [if_pos hteam]

/-- Witness for C5: on a one-pawn game, the accepted move `(0,-1) -> (0,0)`
yields a game whose turn is the flip of White, and on a game holding only a
Black pawn at `(0,1)` with White to move, the same-square request fails with
`TurnError{given := Black, real := White}` and leaves the game unchanged. -/
theorem c5_turn_alternation_witness :
    ((⟨Team.Black, ⟨[(Coord.new 0 0, Piece.new .Pawn .White)], [], []⟩,
        false⟩ : Game).turn =
      (⟨Team.White, ⟨[(Coord.new 0 (-1), Piece.new .Pawn .White)], [], []⟩,
        false⟩ : Game).turn.flip) ∧
    ((⟨Team.White, ⟨[(Coord.new 0 1, Piece.new .Pawn .Black)], [], []⟩,
        false⟩ : Game).move_piece (Coord.new 0 1) (Coord.new 0 0) =
      some (.error (.TurnError Team.Black Team.White),
        ⟨Team.White, ⟨[(Coord.new 0 1, Piece.new .Pawn .Black)], [], []⟩,
          false⟩)) :=
  ⟨c5_turn_alternation.2.1
      ⟨Team.White, ⟨[(Coord.new 0 (-1), Piece.new .Pawn .White)], [], []⟩,
        false⟩
      (Coord.new 0 (-1)) (Coord.new 0 0)
      ⟨Team.Black, ⟨[(Coord.new 0 0, Piece.new .Pawn .White)], [], []⟩, false⟩
      (by decide),
    c5_turn_alternation.2.2
      ⟨Team.White, ⟨[(Coord.new 0 1, Piece.new .Pawn .Black)], [], []⟩, false⟩
      (Coord.new 0 1) (Coord.new 0 0) (Piece.new .Pawn .Black) (by decide)
      (by decide)⟩

theorem Coord.knight_vector_facts (v : Coord)
    (h : (v.q * v.r * v.s).natAbs = 6) :
    v.norm_squared = 7 ∧ v.is_axis = false := by
  obtain ⟨a, b⟩ := v
  simp only [Coord.s] at h
  have habs : a.natAbs * b.natAbs * (-a - b).natAbs = 6 := by
    rw [← Int.natAbs_mul, ← Int.natAbs_mul]
    exact h
  have hda : a.natAbs ∣ 6 := ⟨b.natAbs * (-a - b).natAbs, by rw [← habs]; ring⟩
  have hdb : b.natAbs ∣ 6 := ⟨a.natAbs * (-a - b).natAbs, by rw [← habs]; ring⟩
  have hba : a.natAbs ≤ 6 := Nat.le_of_dvd (by norm_num) hda
  have hbb : b.natAbs ≤ 6 := Nat.le_of_dvd (by norm_num) hdb
  have ha1 : -6 ≤ a := by omega
  have ha2 : a ≤ 6 := by omega
  have hb1 : -6 ≤ b := by omega
  have hb2 : b ≤ 6 := by omega
  clear habs hda hdb hba hbb
  revert h
  interval_cases a <;> interval_cases b <;> decide

/-- C7: knight moves never fail on path blocking.  Whenever the displacement
satisfies the knight invariant `|v.q * v.r * v.s| = 6`, `collides` returns
`false` on every board (all twelve knight vectors have `norm_squared = 7`, the
computed step count is 1, and the march inspects no cell); consequently a
knight's `unchecked_can_move` never returns `CollisionOnPath`. -/
theorem c7_knight_never_collides :
    (∀ (b : HexBoard) (f t : Coord),
        ((t - f).q * (t - f).r * (t - f).s).natAbs = 6 →
          b.collides f t = some false) ∧
    (∀ (b : HexBoard) (piece : Piece) (f t : Coord), piece.name = .Knight →
        b.unchecked_can_move piece f t ≠
          some (.error ⟨.CollisionOnPath piece, f, t⟩)) := by
  have main : ∀ (b : HexBoard) (f t : Coord),
      ((t - f).q * (t - f).r * (t - f).s).natAbs = 6 →
        b.collides f t = some false := by
    intro b f t h
    obtain ⟨h7, hax⟩ := Coord.knight_vector_facts (t - f) h
    have htd : (Int.tdiv (7 : Int) 3).toNat = 2 := by decide
    have hsqrt : Nat.sqrt (Int.tdiv (7 : Int) 3).toNat = 1 := by
      rw [htd]
      have h1 : 1 ≤ Nat.sqrt 2 := Nat.le_sqrt.mpr (by norm_num)
      have h2 : Nat.sqrt 2 < 2 := Nat.sqrt_lt.mpr (by norm_num)
      omega
    simp [HexBoard.collides, hax, h7, hsqrt]
  refine ⟨main, ?_⟩
  intro b piece f t hname hcol
  unfold HexBoard.unchecked_can_move at hcol
  by_cases hb : (t.q.natAbs > 5 ∨ t.r.natAbs > 5 ∨ t.s.natAbs > 5)
  · rw [if_pos hb] at hcol
    simp at hcol
  · rw [if_neg hb] at hcol
    cases hv : piece.verify_move f t with
    | none => rw [hv] at hcol; simp at hcol
    | some possible =>
      rw [hv] at hcol
      dsimp only at hcol
      -- the shape match forces the knight invariant on the displacement
      have hinv : ((t - f).q * (t - f).r * (t - f).s).natAbs = 6 := by
        unfold Piece.verify_move at hv
        rw [hname] at hv
        cases hteam : piece.team with
        | White =>
          rw [hteam] at hv
          unfold Name.verify_move Name.verify_knight at hv
          by_cases h6 : ((t - f).q * (t - f).r * (t - f).s).natAbs = 6
          · exact h6
          · rw [if_neg h6] at hv; exact Option.noConfusion hv
        | Black =>
          rw [hteam] at hv
          unfold Name.verify_move Name.verify_knight at hv
          by_cases h6 : ((t.reflect_q - f.reflect_q).q *
              (t.reflect_q - f.reflect_q).r * (t.reflect_q - f.reflect_q).s).natAbs = 6
          · -- transfer the invariant through the reflection
            obtain ⟨fq, fr⟩ := f
            obtain ⟨tq, tr⟩ := t
            simp only [Coord.reflect_q, Coord.s, Coord.sub_def, Coord.new,
              Coord.new_q, Coord.new_r] at h6 ⊢
            rw [show (tq - fq) * (tr - fr) * (-(tq - fq) - (tr - fr)) =
                (tq - fq) * (-tq - tr - (-fq - fr)) *
                  (-(tq - fq) - (-tq - tr - (-fq - fr))) by ring]
            exact h6
          · rw [if_neg h6] at hv; exact Option.noConfusion hv
      have hfalse := main b f t hinv
      by_cases hocc : ((!possible.capture &&
            (piecesLookup b.pieces t).isSome) ||
          (possible.capture && (piecesLookup b.pieces t).isSome &&
            (match piecesLookup b.pieces t with
              | some q => q.team == piece.team
              | none => false)) ||
          (!possible._move && !(piecesLookup b.pieces t).isSome)) = true
      · rw [if_pos hocc] at hcol
        simp at hcol
      · rw [if_neg hocc] at hcol
        rw [hfalse] at hcol
        simp at hcol

/-- Witness for C7: on the empty board the knight displacement
`(0,0) -> (3,-1)` (product `3 · (-1) · (-2)`) never collides. -/
theorem c7_knight_never_collides_witness :
    ((⟨[], [], []⟩ : HexBoard).collides (Coord.new 0 0) (Coord.new 3 (-1)) =
      some false) ∧
    ((⟨[(Coord.new 1 0, Piece.new .Pawn .White)], [], []⟩ :
        HexBoard).unchecked_can_move (Piece.new .Knight .White)
        (Coord.new 0 0) (Coord.new 3 (-1)) ≠
      some (.error ⟨.CollisionOnPath (Piece.new .Knight .White), Coord.new 0 0,
        Coord.new 3 (-1)⟩)) :=
  ⟨c7_knight_never_collides.1 ⟨[], [], []⟩ (Coord.new 0 0) (Coord.new 3 (-1))
      (by decide),
    c7_knight_never_collides.2 ⟨[(Coord.new 1 0, Piece.new .Pawn .White)], [],
      []⟩ (Piece.new .Knight .White) (Coord.new 0 0) (Coord.new 3 (-1)) rfl⟩

theorem HexBoard.move_piece_of_can_move_error (b : HexBoard) (f t : Coord)
    (e : MoveError) (h : b.can_move f t = some (.error e)) :
    b.move_piece f t = some (.error e, b) := by
  unfold HexBoard.move_piece
  rw [h]

theorem HexBoard.unchecked_self_invalid (b : HexBoard) (p : Piece) (c : Coord)
    (hp : piecesLookup b.pieces c = some p) :
    b.unchecked_can_move p c c = some (.error ⟨.InvalidMove p, c, c⟩) := by
  unfold HexBoard.unchecked_can_move
  by_cases hb : (c.q.natAbs > 5 ∨ c.r.natAbs > 5 ∨ c.s.natAbs > 5)
  · rw [if_pos hb]
  · rw [if_neg hb]
    rw [Piece.verify_move_self_eq]
    by_cases hn : (p.name = .Bishop ∨ p.name = .Rook ∨ p.name = .Queen)
    · rw [if_pos hn]
      dsimp only
      simp [hp]
    · rw [if_neg hn]

/-- C9: a null move is never accepted and never mutates.  For every board and
cell `c`, `move_piece c c` fails with `NoPiece` when the cell is empty and
with `InvalidMove` (carrying the resident piece) when it is occupied — the
shape rules reject the zero displacement for pawn, knight and king, and the
occupancy rule rejects "capturing" the mover's own cell for bishop, rook and
queen — and the board is returned unchanged. -/
theorem c9_null_move_always_rejected (b : HexBoard) (c : Coord) :
    (piecesLookup b.pieces c = none →
        b.move_piece c c =
          some (.error ⟨.NoPiece (.NoPiece c), c, c⟩, b)) ∧
    (∀ p, piecesLookup b.pieces c = some p →
        b.move_piece c c = some (.error ⟨.InvalidMove p, c, c⟩, b)) := by
  constructor
  · intro hnone
    apply HexBoard.move_piece_of_can_move_error
    unfold HexBoard.can_move
    simp [HexBoard.get, hnone]
  · intro p hp
    apply HexBoard.move_piece_of_can_move_error
    by_cases hche : (b.checkers p.team).isEmpty = true
    · rw [HexBoard.can_move_no_check b c c p hp hche]
      exact HexBoard.unchecked_self_invalid b p c hp
    · refine HexBoard.can_move_in_check b c c p hp ?_
      cases hh : (b.checkers p.team).isEmpty with
      | true => exact absurd hh hche
      | false => rfl

/-- Witness for C9: the null move at the origin on the empty board, and on a
board holding a White rook at the origin. -/
theorem c9_null_move_always_rejected_witness :
    ((⟨[], [], []⟩ : HexBoard).move_piece (Coord.new 0 0) (Coord.new 0 0) =
      some (.error ⟨.NoPiece (.NoPiece (Coord.new 0 0)), Coord.new 0 0,
        Coord.new 0 0⟩, (⟨[], [], []⟩ : HexBoard))) ∧
    ((⟨[(Coord.new 0 0, Piece.new .Rook .White)], [], []⟩ :
        HexBoard).move_piece (Coord.new 0 0) (Coord.new 0 0) =
      some (.error ⟨.InvalidMove (Piece.new .Rook .White), Coord.new 0 0,
        Coord.new 0 0⟩,
        (⟨[(Coord.new 0 0, Piece.new .Rook .White)], [], []⟩ : HexBoard))) :=
  ⟨(c9_null_move_always_rejected ⟨[], [], []⟩ (Coord.new 0 0)).1 (by decide),
    (c9_null_move_always_rejected
        ⟨[(Coord.new 0 0, Piece.new .Rook .White)], [], []⟩ (Coord.new 0 0)).2
      (Piece.new .Rook .White) (by decide)⟩

theorem Coord.length_eq_zero_iff (v : Coord) :
    v.length = 0 ↔ (v.q = 0 ∧ v.r = 0) := by
  obtain ⟨a, b⟩ := v
  simp only [Coord.length, Coord.s]
  constructor
  · intro h0
    have h0' : a.natAbs ⊔ (b.natAbs ⊔ (-a - b).natAbs) = 0 :=
      Int.ofNat_inj.mp h0
    have ha := Nat.le_max_left a.natAbs (b.natAbs ⊔ (-a - b).natAbs)
    have hy := Nat.le_max_right a.natAbs (b.natAbs ⊔ (-a - b).natAbs)
    have hb := Nat.le_max_left b.natAbs ((-a - b).natAbs)
    rw [h0'] at ha hy
    omega
  · rintro ⟨h1, h2⟩
    subst h1
    subst h2
    decide

theorem Coord.norm_squared_ge_three (v : Coord) (hax : v.is_axis = false)
    (hnz : ¬(v.q = 0 ∧ v.r = 0)) : 3 ≤ v.norm_squared := by
  obtain ⟨a, b⟩ := v
  by_contra hlt
  push_neg at hlt
  simp only [Coord.norm_squared] at hlt
  have hsq : a * a ≤ 4 ∧ b * b ≤ 4 := by
    constructor <;> nlinarith [sq_nonneg (a + b), sq_nonneg a, sq_nonneg b]
  have ha1 : -2 ≤ a := by nlinarith [hsq.1]
  have ha2 : a ≤ 2 := by nlinarith [hsq.1]
  have hb1 : -2 ≤ b := by nlinarith [hsq.2]
  have hb2 : b ≤ 2 := by nlinarith [hsq.2]
  clear hsq
  revert hax hnz hlt
  interval_cases a <;> interval_cases b <;> decide

theorem Coord.sub_components_zero (a c : Coord) (h1 : (a - c).q = 0)
    (h2 : (a - c).r = 0) : a = c := by
  obtain ⟨aq, ar⟩ := a
  obtain ⟨cq, cr⟩ := c
  simp only [Coord.sub_def, Coord.new, Coord.new_q, Coord.new_r] at h1 h2
  simp only [Coord.mk.injEq]
  omega

theorem HexBoard.collides_isSome (b : HexBoard) (f t : Coord)
    (h : ¬((t - f).q = 0 ∧ (t - f).r = 0)) :
    (b.collides f t).isSome = true := by
  cases hax : (t - f).is_axis with
  | true =>
    have hlen : ¬((t - f).length = 0) := fun hz =>
      h ((Coord.length_eq_zero_iff (t - f)).1 hz)
    simp [HexBoard.collides, hax, hlen]
  | false =>
    have h3 : 3 ≤ (t - f).norm_squared := Coord.norm_squared_ge_three _ hax h
    have hdiv : 1 ≤ Int.tdiv (t - f).norm_squared 3 := by
      rw [Int.tdiv_eq_ediv (by omega) (by norm_num)]
      omega
    have hsq : 1 ≤ Nat.sqrt (Int.tdiv (t - f).norm_squared 3).toNat :=
      Nat.le_sqrt.mpr (by omega)
    have hne : ¬(Nat.sqrt (Int.tdiv (t - f).norm_squared 3).toNat = 0) := by
      omega
    have hne' : ¬(Int.ofNat
        (Nat.sqrt (Int.tdiv (t - f).norm_squared 3).toNat) = 0) := fun hz =>
      hne (Int.ofNat_inj.mp hz)
    simp [HexBoard.collides, hax, hne, hne']

theorem HexBoard.unchecked_isSome (b : HexBoard) (piece : Piece) (f t : Coord)
    (hl : piecesLookup b.pieces f = some piece) :
    (b.unchecked_can_move piece f t).isSome = true := by
  have hcol : ¬(t = f) → ((match b.collides f t with
      | none => none
      | some true => some (.error ⟨.CollisionOnPath piece, f, t⟩)
      | some false => some (.ok ())) :
        Option (Except MoveError Unit)).isSome = true := by
    intro hne
    have hv0 : ¬((t - f).q = 0 ∧ (t - f).r = 0) := fun hz =>
      hne (Coord.sub_components_zero t f hz.1 hz.2)
    have hcs := HexBoard.collides_isSome b f t hv0
    cases hco : b.collides f t with
    | none => rw [hco] at hcs; exact absurd hcs (by simp)
    | some bb => cases bb <;> simp
  unfold HexBoard.unchecked_can_move
  by_cases hb : (t.q.natAbs > 5 ∨ t.r.natAbs > 5 ∨ t.s.natAbs > 5)
  · rw [if_pos hb]; rfl
  · rw [if_neg hb]
    cases hv : piece.verify_move f t with
    | none => rfl
    | some possible =>
      dsimp only
      obtain ⟨pm, pc⟩ := possible
      by_cases heq : t = f
      · subst heq
        rw [Piece.verify_move_self_eq] at hv
        split at hv
        · injection hv with hv
          injection hv with hpm hpc
          subst hpm
          subst hpc
          simp [hl]
        · exact Option.noConfusion hv
      · cases hlt : piecesLookup b.pieces t with
        | none => cases pm <;> simp [hcol heq]
        | some q =>
          cases pc
          · cases pm <;> simp [hcol heq]
          · cases hqt : (q.team == piece.team) <;> cases pm <;>
              simp [hqt, hcol heq]

theorem HexBoard.can_move_ok_lookup (b : HexBoard) (f t : Coord)
    (u : Unit) (h : b.can_move f t = some (.ok u)) :
    ∃ piece, piecesLookup b.pieces f = some piece := by
  cases hq : piecesLookup b.pieces f with
  | some p => exact ⟨p, rfl⟩
  | none =>
    unfold HexBoard.can_move at h
    simp only [HexBoard.get, hq] at h
    simp at h

theorem HexBoard.can_move_isSome (b : HexBoard) (f t : Coord) :
    (b.can_move f t).isSome = true := by
  unfold HexBoard.can_move
  cases hg : b.get f with
  | error e => simp
  | ok piece =>
    have hl : piecesLookup b.pieces f = some piece :=
      (HexBoard.get_eq_ok_iff b f piece).1 hg
    dsimp only
    by_cases hche : (b.checkers piece.team).isEmpty = true
    · simp only [hche, if_true]
      exact HexBoard.unchecked_isSome b piece f t hl
    · have hchf : (b.checkers piece.team).isEmpty = false := by
        cases hh : (b.checkers piece.team).isEmpty with
        | true => exact absurd hh hche
        | false => rfl
      simp only [hchf, Bool.false_eq_true, if_false]
      rw [HexBoard.teleport_eq_some b f t piece hl]
      dsimp only
      split <;> rfl

/-- C10: `move_piece` is total (panic-free) for every board state and every
pair of coordinates: the division inside `collides` is reached only with a
non-zero step count (the shape and occupancy checks exclude the zero
displacement, and a non-axis non-zero displacement has `norm_squared ≥ 3`),
and `teleport`'s `unwrap` runs only after `can_move` confirmed a piece at
`from` — so the embedded computation, whose `none` marks exactly the Rust
panic sites, always returns `some`. -/
theorem c10_move_piece_total (b : HexBoard) (f t : Coord) :
    (b.move_piece f t).isSome = true := by
  unfold HexBoard.move_piece
  have hcs := HexBoard.can_move_isSome b f t
  cases hc : b.can_move f t with
  | none => rw [hc] at hcs; simp at hcs
  | some res =>
    cases res with
    | error e => simp
    | ok u =>
      obtain ⟨piece, hl⟩ := HexBoard.can_move_ok_lookup b f t u hc
      rw [HexBoard.teleport_eq_some b f t piece hl]
      simp
